import Mathlib

/-!
# Verification of the Tock process-scheduling core (krady21/tock)

Shallow embedding of the four schedulers in `kernel/src/sched/` —
`round_robin.rs`, `cooperative.rs`, `priority.rs`, `mlfq.rs` — together with
the boot-time queue construction in `boards/components/src/sched/`.

Modelling conventions:

* The environment visible to a scheduler (pending interrupts, deferred calls,
  process states, context-switch results, time consumed while a process held
  the CPU) is supplied as a script of observations, one per loop iteration of
  the Rust code; the embedding consumes one observation per iteration.
* The intrusive singly-linked `List` type (`kernel/src/common/list.rs`, not
  part of the sources here) is modelled from the spec as a Lean `List` with
  `push_head` = cons, `push_tail` = append-singleton, `pop_head` = uncons.
* The `SysTick` capability (`kernel/src/platform/systick.rs`, not part of the
  sources here) is modelled from the spec (section 6): `set_timer(us)` arms a
  countdown, `get_value()` returns the remaining microseconds, and
  `greater_than(us)` compares the remaining value against `us`.  The counter
  only counts down while a process executes (`switch_to`); an execution that
  consumes more than the remaining value drives the counter to zero and sets
  the overflow flag.
* Rust panic paths are reified as a `panicked` result constructor;
  exhausting the observation script is the `fuel` constructor.
-/

namespace Tock

/-- Process states as observed by the scheduler (`kernel/src/process.rs`,
modelled from the spec section 3). -/
inductive PState where
  | Running
  | Yielded
  | Unstarted
  | Fault
  | StoppedRunning
  | StoppedYielded
  | StoppedFaulted
deriving DecidableEq, Repr

/-- System calls (`kernel/src/syscall.rs`); the schedulers only branch on
`YIELD` versus everything else. -/
inductive Syscall where
  | YIELD
  | SUBSCRIBE
  | COMMAND
  | ALLOW
  | MEMOP
deriving DecidableEq, Repr

/-- Reason a context switch back to the kernel happened
(`kernel/src/syscall.rs`). -/
inductive ContextSwitchReason where
  | SyscallFired (s : Syscall)
  | Fault
  | TimesliceExpired
  | Interrupted
deriving DecidableEq, Repr

/-- One inner-loop iteration's worth of observations of the world outside the
scheduler: whether `chip.has_pending_interrupts()` or a deferred call is
pending at the top of the `do_process` loop, the process state returned by
`process.get_state()`, the result of `process.switch_to()` together with the
microseconds the process consumed while it held the CPU, and whether
`process.dequeue_task()` yields a task. -/
structure Event where
  pending : Bool
  state : PState
  switchRes : Option ContextSwitchReason
  used : Nat
  task : Bool
deriving DecidableEq, Repr

/-! ## Round-robin scheduler (`kernel/src/sched/round_robin.rs`) -/

/-- Constant `RoundRobinSched::DEFAULT_TIMESLICE_US`. -/
def DEFAULT_TIMESLICE_US : Nat := 10000

/-- Constant `RoundRobinSched::MIN_QUANTA_THRESHOLD_US` (also
`MLFQSched::MIN_QUANTA_THRESHOLD_US`, same value). -/
def MIN_QUANTA_THRESHOLD_US : Nat := 500

/-- Result of `RoundRobinSched::do_process`: the returned `bool`
(`interrupted` = the process stopped because of `ContextSwitchReason::Interrupted`),
the value of the `time_remaining` cell after the call, the number of calls to
`process.debug_timeslice_expired()` and the number of context switches
performed. -/
inductive RROut where
  | ret (interrupted : Bool) (timeRem : Nat) (dbg sw : Nat)
  | panicked (timeRem : Nat) (dbg sw : Nat)
  | fuel (timeRem : Nat) (dbg sw : Nat)
deriving DecidableEq, Repr

/-- Body of the `loop { ... }` in `RoundRobinSched::do_process`
(round_robin.rs lines 91-165).  `ts` is the local `timeslice` variable,
`sysval`/`ovf` the systick countdown state, `timeRem` the `time_remaining`
cell, `dbg`/`sw` the accumulated trace counters. -/
def rr_loop (ts : Nat) : Nat → Bool → Nat → Nat → Nat → List Event → RROut
  | _, _, timeRem, dbg, sw, [] => .fuel timeRem dbg sw
  | sysval, ovf, timeRem, dbg, sw, e :: rest =>
    if e.pending then
      -- pending interrupt or deferred call: break, return false
      .ret false timeRem dbg sw
    else if ovf || !(decide (MIN_QUANTA_THRESHOLD_US < sysval)) then
      -- `systick.overflowed() || !systick.greater_than(MIN_QUANTA_THRESHOLD_US)`
      .ret false timeRem (dbg + 1) sw
    else
      match e.state with
      | .Running =>
        -- switch_to: the countdown advances by `e.used` while the process runs
        let sysval' := if e.used ≤ sysval then sysval - e.used else 0
        let ovf' := if e.used ≤ sysval then ovf else true
        -- `let cur_time = systick.get_value();` (remaining microseconds)
        match e.switchRes with
        | some (.SyscallFired .YIELD) => rr_loop ts sysval' ovf' timeRem dbg (sw + 1) rest
        | some .TimesliceExpired => .ret false timeRem dbg (sw + 1)
        | some .Interrupted =>
          -- `self.time_remaining.set(timeslice - cur_time); return true;`
          .ret true (ts - sysval') dbg (sw + 1)
        | _ => rr_loop ts sysval' ovf' timeRem dbg (sw + 1) rest
      | .Yielded | .Unstarted =>
        if e.task then rr_loop ts sysval ovf timeRem dbg sw rest
        else .ret false timeRem dbg sw
      | .Fault => .panicked timeRem dbg sw
      | .StoppedRunning | .StoppedYielded | .StoppedFaulted => .ret false timeRem dbg sw

/-- Timeslice chosen at the top of `RoundRobinSched::do_process`
(round_robin.rs lines 82-86): the saved `time_remaining` when `rescheduled`,
the default quantum otherwise. -/
def rr_programmed_timeslice (rescheduled : Bool) (timeRem : Nat) : Nat :=
  if rescheduled then timeRem else DEFAULT_TIMESLICE_US

/-- Function `RoundRobinSched::do_process`: resets the systick, programs the
timeslice and runs the inner loop. -/
def rr_do_process (rescheduled : Bool) (timeRem : Nat) (events : List Event) : RROut :=
  let timeslice := rr_programmed_timeslice rescheduled timeRem
  rr_loop timeslice timeslice false timeRem 0 0 events

/-! ## Cooperative scheduler (`kernel/src/sched/cooperative.rs`) -/

/-- Result of `CooperativeSched::do_process`: the returned `bool`
(`interrupted`) and the number of context switches performed. -/
inductive CoopOut where
  | ret (interrupted : Bool) (sw : Nat)
  | panicked (sw : Nat)
  | fuel (sw : Nat)
deriving DecidableEq, Repr

/-- Body of the `loop { ... }` in `CooperativeSched::do_process`
(cooperative.rs lines 62-124).  No systick is involved; a
`ContextSwitchReason::TimesliceExpired` result falls into the catch-all arm
and the loop continues. -/
def coop_loop : Nat → List Event → CoopOut
  | sw, [] => .fuel sw
  | sw, e :: rest =>
    if e.pending then .ret false sw
    else
      match e.state with
      | .Running =>
        match e.switchRes with
        | some (.SyscallFired .YIELD) => coop_loop (sw + 1) rest
        | some .Interrupted => .ret true (sw + 1)
        | _ => coop_loop (sw + 1) rest
      | .Yielded | .Unstarted =>
        if e.task then coop_loop sw rest
        else .ret false sw
      | .Fault => .panicked sw
      | .StoppedRunning | .StoppedYielded | .StoppedFaulted => .ret false sw

/-- Function `CooperativeSched::do_process`. -/
def coop_do_process (events : List Event) : CoopOut :=
  coop_loop 0 events

/-- Boot-time queue construction of `CooperativeComponent::finalize`
(boards/components/src/sched/cooperative.rs lines 63-69, identical in the
round-robin component): iterate over the process table in index order and
`push_head` each node, so the resulting ready list is in reverse table
order.  `push_head` on the intrusive list is modelled from the spec as cons. -/
def coop_component_finalize (appids : List Nat) : List Nat :=
  appids.foldl (fun queue a => a :: queue) []

/-! ## Kernel loop (shared shape of round_robin.rs and cooperative.rs) -/

/-- Observations made by one iteration of the inner scheduling loop of
`kernel_loop`: `chip.has_pending_interrupts()`, deferred-call pending,
`kernel.processes_blocked()`, whether the head appid is found in the process
table by `kernel.process_map_or` and the observation script for the
`do_process` call of this iteration. -/
structure LoopObs where
  pending : Bool
  deferred : Bool
  blocked : Bool
  lookupOk : Bool
  events : List Event
deriving DecidableEq, Repr

/-- Observations made inside the `chip.atomic` bracket at the bottom of every
`kernel_loop` iteration. -/
structure SleepObs where
  pending : Bool
  deferred : Bool
  blocked : Bool
deriving DecidableEq, Repr

/-- Sleep decision taken inside `chip.atomic` (round_robin.rs lines 204-211,
cooperative.rs lines 161-168, mlfq.rs lines 298-305): `chip.sleep()` runs
exactly when no interrupt is pending, no deferred call is pending, and all
processes are blocked. -/
def kernel_sleep_decision (a : SleepObs) : Bool :=
  !a.pending && !a.deferred && a.blocked

/-- Result of running the inner scheduling loop: `brk` carries the executed
appids in order, the final queue, the final `reschedule` flag and the final
`time_remaining` cell. -/
inductive InnerOut where
  | brk (runs : List Nat) (queue : List Nat) (resched : Bool) (timeRem : Nat)
  | panicked (runs : List Nat)
  | fuel (runs : List Nat)
deriving DecidableEq, Repr

/-- Executed appids recorded by an `InnerOut`, regardless of how the loop
ended. -/
def InnerOut.runsOf : InnerOut → List Nat
  | .brk runs _ _ _ => runs
  | .panicked runs => runs
  | .fuel runs => runs

/-- Inner scheduling loop of `RoundRobinSched::kernel_loop` (round_robin.rs
lines 185-202): break on pending interrupt, deferred call or all-blocked;
otherwise run the head of the ring via `do_process` with the
`last_rescheduled` flag, and rotate head to tail unless the process was
interrupted.  A failed table lookup leaves `reschedule` false, so the head is
rotated without being executed. -/
def rr_inner : List Nat → Bool → Nat → List Nat → List LoopObs → InnerOut
  | _, _, _, runs, [] => .fuel runs
  | queue, resched, timeRem, runs, o :: rest =>
    if o.pending || o.deferred || o.blocked then .brk runs queue resched timeRem
    else
      match queue with
      | [] => .panicked runs -- `self.processes.head().unwrap()`
      | h :: t =>
        if o.lookupOk then
          match rr_do_process resched timeRem o.events with
          | .ret intr timeRem' _ _ =>
            if intr then rr_inner (h :: t) true timeRem' (runs ++ [h]) rest
            else rr_inner (t ++ [h]) false timeRem' (runs ++ [h]) rest
          | .panicked _ _ _ => .panicked (runs ++ [h])
          | .fuel _ _ _ => .fuel (runs ++ [h])
        else rr_inner (t ++ [h]) false timeRem runs rest

/-- Result of one outer iteration of a `kernel_loop`: executed appids, final
queue, final `reschedule` flag and `time_remaining` cell, and whether
`chip.sleep()` was called. -/
inductive RRIterOut where
  | ok (runs : List Nat) (queue : List Nat) (resched : Bool) (timeRem : Nat) (slept : Bool)
  | panicked (runs : List Nat)
  | fuel (runs : List Nat)
deriving DecidableEq, Repr

/-- Executed appids recorded by an `RRIterOut`. -/
def RRIterOut.runsOf : RRIterOut → List Nat
  | .ok runs _ _ _ _ => runs
  | .panicked runs => runs
  | .fuel runs => runs

/-- Whether an `RRIterOut` ended the iteration in `chip.sleep()`. -/
def RRIterOut.sleptOf : RRIterOut → Bool
  | .ok _ _ _ _ slept => slept
  | _ => false

/-- One outer iteration of `RoundRobinSched::kernel_loop` (round_robin.rs
lines 180-212): service interrupts and deferred calls (environment effects),
run the inner scheduling loop, then take the sleep decision inside
`chip.atomic`. -/
def rr_outer_iter (queue : List Nat) (resched : Bool) (timeRem : Nat)
    (inner : List LoopObs) (a : SleepObs) : RRIterOut :=
  match rr_inner queue resched timeRem [] inner with
  | .brk runs q r t => .ok runs q r t (kernel_sleep_decision a)
  | .panicked runs => .panicked runs
  | .fuel runs => .fuel runs

/-- Inner scheduling loop of `CooperativeSched::kernel_loop` (cooperative.rs
lines 144-159): identical to the round-robin inner loop except that
`do_process` takes no timeslice state. -/
def coop_inner : List Nat → List Nat → List LoopObs → InnerOut
  | _, runs, [] => .fuel runs
  | queue, runs, o :: rest =>
    if o.pending || o.deferred || o.blocked then .brk runs queue false 0
    else
      match queue with
      | [] => .panicked runs -- `self.processes.head().unwrap()`
      | h :: t =>
        if o.lookupOk then
          match coop_do_process o.events with
          | .ret intr _ =>
            if intr then coop_inner (h :: t) (runs ++ [h]) rest
            else coop_inner (t ++ [h]) (runs ++ [h]) rest
          | .panicked _ => .panicked (runs ++ [h])
          | .fuel _ => .fuel (runs ++ [h])
        else coop_inner (t ++ [h]) runs rest

/-- One outer iteration of `CooperativeSched::kernel_loop` (cooperative.rs
lines 139-170). -/
def coop_outer_iter (queue : List Nat) (inner : List LoopObs) (a : SleepObs) : RRIterOut :=
  match coop_inner queue [] inner with
  | .brk runs q _ _ => .ok runs q false 0 (kernel_sleep_decision a)
  | .panicked runs => .panicked runs
  | .fuel runs => .fuel runs

/-! ## Priority scheduler (`kernel/src/sched/priority.rs`) -/

/-- Entry of the kernel process table as seen by the priority scheduler: an
appid plus the result of `proc.ready()`. -/
structure PProc where
  appid : Nat
  ready : Bool
deriving DecidableEq, Repr

/-- Function `PrioritySched::next` (priority.rs lines 81-83):
`(*self.kernel.processes.iter().nth(0).unwrap_or(&None), 10000)` — the first
slot of the process table, whatever its state, with a 10000 microsecond
timeslice. -/
def priority_next (table : List (Option PProc)) : Option PProc × Nat :=
  (table.head?.getD none, 10000)

/-- Selection as worded by the spec (section 4.6): the first process in table
order that is runnable.  Stated for comparison with `priority_next`. -/
def priority_next_spec (table : List (Option PProc)) : Option PProc :=
  (table.filterMap id).find? (fun p => p.ready)

/-! ## MLFQ scheduler (`kernel/src/sched/mlfq.rs`) -/

/-- Constant `MLFQSched::PRIORITY_REFRESH_PERIOD_MS`. -/
def PRIORITY_REFRESH_PERIOD_MS : Nat := 5000

/-- Node of an MLFQ ready queue (`MLFQProcessNode`): an appid plus the
`MfProcState` cell `us_used_this_queue`. -/
structure MNode where
  appid : Nat
  usUsed : Nat
deriving DecidableEq, Repr

/-- Index into the `processes: [List; 3]` array of `MLFQSched`; `q0` is the
highest-priority queue (index 0). -/
inductive QIdx where
  | q0
  | q1
  | q2
deriving DecidableEq, Repr

/-- Contents of the three MLFQ ready queues, head first. -/
structure MQueues where
  q0 : List MNode
  q1 : List MNode
  q2 : List MNode
deriving DecidableEq, Repr

/-- Read `self.processes[i]`. -/
def MQueues.get (qs : MQueues) : QIdx → List MNode
  | .q0 => qs.q0
  | .q1 => qs.q1
  | .q2 => qs.q2

/-- Replace `self.processes[i]`. -/
def MQueues.set (qs : MQueues) : QIdx → List MNode → MQueues
  | .q0, l => { qs with q0 := l }
  | .q1, l => { qs with q1 := l }
  | .q2, l => { qs with q2 := l }

/-- Function `MLFQSched::get_timeslice_us` (mlfq.rs lines 80-87); the
`_ => panic` arm is unreachable because the index type has three values. -/
def get_timeslice_us : QIdx → Nat
  | .q0 => 10000
  | .q1 => 20000
  | .q2 => 50000

/-- Demotion target computed in `MLFQSched::kernel_loop` (mlfq.rs lines
285-289): `if queue_idx == NUM_QUEUES - 1 { queue_idx } else { queue_idx + 1 }`. -/
def nextQueue : QIdx → QIdx
  | .q0 => .q1
  | .q1 => .q2
  | .q2 => .q2

/-- One step of the `for queue in self.processes.iter()` loop of
`MLFQSched::redeem_all_procs` (mlfq.rs lines 89-101).  The loop body tests
the `first` flag and runs `continue` before ever clearing it, so `first`
stays `true`; when it is false it would pop one head node of the current
queue and push it to the tail of queue 0. -/
def redeem_step (st : MQueues × Bool) (i : QIdx) : MQueues × Bool :=
  let (qs, first) := st
  if first then (qs, first)
  else
    match qs.get i with
    | [] => (qs, false)
    | n :: rest =>
      let qs' := qs.set i rest
      (qs'.set .q0 (qs'.get .q0 ++ [n]), false)

/-- Function `MLFQSched::redeem_all_procs`, the `for` loop unrolled over the
three queues with the `first` flag initialized to `true`. -/
def redeem_all_procs (qs : MQueues) : MQueues :=
  (redeem_step (redeem_step (redeem_step (qs, true) .q0) .q1) .q2).1

/-- Result of `MLFQSched::do_process`: the returned `switch_reason_opt`, the
final value of the selected node's `us_used_this_queue` cell, the number of
calls to `debug_timeslice_expired` and the number of context switches. -/
inductive MOut where
  | ret (reason : Option ContextSwitchReason) (usUsed : Nat) (dbg sw : Nat)
  | panicked (usUsed : Nat) (dbg sw : Nat)
  | fuel (usUsed : Nat) (dbg sw : Nat)
deriving DecidableEq, Repr

/-- Body of the `loop { ... }` in `MLFQSched::do_process` (mlfq.rs lines
121-199).  Unlike the round-robin loop it does not break on pending
interrupts, its guard additionally forces an expiry once `us_used_this_queue`
exceeds `PRIORITY_REFRESH_PERIOD_MS * 1000`, and on every context switch it
adds `timeslice - systick.get_value()` to the node's cell (the systick is
programmed once at entry and never reset inside the loop). -/
def mlfq_loop (ts : Nat) (sysval : Nat) (ovf : Bool) (usUsed : Nat)
    (reasonOpt : Option ContextSwitchReason) (dbg sw : Nat) :
    List Event → MOut :=
  fun events =>
    if ovf || !(decide (MIN_QUANTA_THRESHOLD_US < sysval))
        || decide (PRIORITY_REFRESH_PERIOD_MS * 1000 < usUsed) then
      .ret (some .TimesliceExpired) usUsed (dbg + 1) sw
    else
      match events with
      | [] => .fuel usUsed dbg sw
      | e :: rest =>
        match e.state with
        | .Running =>
          -- `let remaining = systick.get_value();` after switch_to
          let remaining := if e.used ≤ sysval then sysval - e.used else 0
          let ovf' := if e.used ≤ sysval then ovf else true
          let usUsed' := usUsed + (ts - remaining)
          match e.switchRes with
          | some .TimesliceExpired => .ret e.switchRes usUsed' dbg (sw + 1)
          | _ => mlfq_loop ts remaining ovf' usUsed' e.switchRes dbg (sw + 1) rest
        | .Yielded | .Unstarted =>
          if e.task then mlfq_loop ts sysval ovf usUsed reasonOpt dbg sw rest
          else .ret reasonOpt usUsed dbg sw
        | .Fault => .panicked usUsed dbg sw
        | .StoppedRunning | .StoppedYielded | .StoppedFaulted => .ret reasonOpt usUsed dbg sw

/-- Function `MLFQSched::do_process`: reset the systick, program the given
timeslice, run the inner loop starting from the node's current
`us_used_this_queue` value with `switch_reason_opt = None`. -/
def mlfq_do_process (ts : Nat) (usUsed : Nat) (events : List Event) : MOut :=
  mlfq_loop ts ts false usUsed none 0 0 events

/-- Left rotation by `k` realizing the pop-to-tail-until-match loop of
`get_next_ready_process_node`: popping `k` heads to the tail and putting the
match back on front leaves the queue rotated so that the match is the head. -/
def rotL (q : List MNode) (k : Nat) : List MNode :=
  q.drop k ++ q.take k

/-- Function `MLFQSched::get_next_ready_process_node` (mlfq.rs lines
204-233): scan queues 0, 1, 2 for the first node whose process is `ready()`
(a failed table lookup counts as not ready, via `process_map_or(false, ..)`),
rotate that queue so the found node is at its head, and return the queue
index; `none` when no queue holds a ready node. -/
def get_next_ready (ready : Nat → Bool) (qs : MQueues) : Option (MQueues × QIdx) :=
  match qs.q0.findIdx? (fun n => ready n.appid) with
  | some k => some (qs.set .q0 (rotL qs.q0 k), .q0)
  | none =>
    match qs.q1.findIdx? (fun n => ready n.appid) with
    | some k => some (qs.set .q1 (rotL qs.q1 k), .q1)
    | none =>
      match qs.q2.findIdx? (fun n => ready n.appid) with
      | some k => some (qs.set .q2 (rotL qs.q2 k), .q2)
      | none => none

/-- Post-`do_process` handling in `MLFQSched::kernel_loop` (mlfq.rs lines
269-295) for the selected node, which `get_next_ready_process_node` left at
the head of queue `idx`.  `u` is the node's `us_used_this_queue` after
`do_process` (the cell is updated inside `do_process` through the node
reference).  `punish` is `switch_reason == Some(TimesliceExpired)`: then the
cell is reset to zero and the node is pushed to the tail of the next lower
queue; otherwise the node is rotated to the tail of its own queue with the
cell keeping its accumulated value. -/
def mlfq_result_step (qs : MQueues) (idx : QIdx)
    (reason : Option ContextSwitchReason) (u : Nat) : MQueues :=
  match qs.get idx with
  | [] => qs -- `pop_head().unwrap()` would panic; the selected node is at the head
  | n :: rest =>
    if reason = some ContextSwitchReason.TimesliceExpired then
      let qs' := qs.set idx rest
      qs'.set (nextQueue idx) (qs'.get (nextQueue idx) ++ [{ appid := n.appid, usUsed := 0 }])
    else
      qs.set idx (rest ++ [{ appid := n.appid, usUsed := u }])

/-- Result of one iteration of the inner scheduling loop of
`MLFQSched::kernel_loop` after the promotion check: the new queues, the
reason and final cell value returned by `do_process`, and its trace
counters. -/
inductive MIterOut where
  | ok (qs : MQueues) (reason : Option ContextSwitchReason) (u : Nat) (dbg sw : Nat)
  | panicked
  | fuel
deriving DecidableEq, Repr

/-- One iteration of the inner scheduling loop of `MLFQSched::kernel_loop`
(mlfq.rs lines 267-295), after the break test and the promotion check:
select the next ready node, run `do_process` on it with its queue's full
quantum, then demote or rotate it according to the stop reason. -/
def mlfq_inner_iter (ready : Nat → Bool) (qs : MQueues) (events : List Event) : MIterOut :=
  match get_next_ready ready qs with
  | none => .panicked -- `node_ref_opt.unwrap()`
  | some (qs1, idx) =>
    match qs1.get idx with
    | [] => .panicked -- unreachable: the selected node is at the head
    | n :: _ =>
      match mlfq_do_process (get_timeslice_us idx) n.usUsed events with
      | .ret reason u dbg sw => .ok (mlfq_result_step qs1 idx reason u) reason u dbg sw
      | .panicked _ _ _ => .panicked
      | .fuel _ _ _ => .fuel

/-- Observations made by one iteration of the inner scheduling loop of
`MLFQSched::kernel_loop`: the three break conditions, the alarm reading
`self.alarm.now()` and the observation script for the `do_process` call of
this iteration. -/
structure MLoopObs where
  pending : Bool
  deferred : Bool
  blocked : Bool
  now : Nat
  events : List Event
deriving DecidableEq, Repr

/-- Result of running the inner scheduling loop of `MLFQSched::kernel_loop`:
executed appids in order plus, on a normal break, the final queues and the
next scheduled refresh time. -/
inductive MInnerOut where
  | brk (runs : List Nat) (qs : MQueues) (nextReset : Nat)
  | panicked (runs : List Nat)
  | fuel (runs : List Nat)
deriving DecidableEq, Repr

/-- Executed appids recorded by an `MInnerOut`, regardless of how the loop
ended. -/
def MInnerOut.runsOf : MInnerOut → List Nat
  | .brk runs _ _ => runs
  | .panicked runs => runs
  | .fuel runs => runs

/-- Inner scheduling loop of `MLFQSched::kernel_loop` (mlfq.rs lines
252-296): break on pending interrupt, deferred call or all-blocked;
otherwise read the alarm and, when it is at or past `next_reset`, schedule
the next refresh and call `redeem_all_procs`; then select the next ready
node (the `unwrap` panics when there is none), run `do_process` on it with
its queue's full quantum, and demote or rotate it according to the stop
reason.  `delta` stands for
`(PRIORITY_REFRESH_PERIOD_MS * A::Frequency::frequency()) / 1000` in alarm
ticks (`wrapping_add` modelled as plain addition); `ready` is the view of
`proc.ready()` through the process table. -/
def mlfq_inner (ready : Nat → Bool) (delta : Nat) :
    MQueues → Nat → List Nat → List MLoopObs → MInnerOut
  | _, _, runs, [] => .fuel runs
  | qs, nextReset, runs, o :: rest =>
    if o.pending || o.deferred || o.blocked then .brk runs qs nextReset
    else
      let qs1 := if nextReset ≤ o.now then redeem_all_procs qs else qs
      let nextReset1 := if nextReset ≤ o.now then o.now + delta else nextReset
      match get_next_ready ready qs1 with
      | none => .panicked runs -- `node_ref_opt.unwrap()`
      | some (qs2, idx) =>
        match qs2.get idx with
        | [] => .panicked runs -- unreachable: the selected node is at the head
        | n :: _ =>
          match mlfq_do_process (get_timeslice_us idx) n.usUsed o.events with
          | .ret reason u _ _ =>
            mlfq_inner ready delta (mlfq_result_step qs2 idx reason u) nextReset1
              (runs ++ [n.appid]) rest
          | .panicked _ _ _ => .panicked (runs ++ [n.appid])
          | .fuel _ _ _ => .fuel (runs ++ [n.appid])

/-- Result of one outer iteration of `MLFQSched::kernel_loop`: executed
appids, final queues, next scheduled refresh and whether `chip.sleep()` was
called. -/
inductive MOuterOut where
  | ok (runs : List Nat) (qs : MQueues) (nextReset : Nat) (slept : Bool)
  | panicked (runs : List Nat)
  | fuel (runs : List Nat)
deriving DecidableEq, Repr

/-- Executed appids recorded by an `MOuterOut`. -/
def MOuterOut.runsOf : MOuterOut → List Nat
  | .ok runs _ _ _ => runs
  | .panicked runs => runs
  | .fuel runs => runs

/-- Whether an `MOuterOut` ended the iteration in `chip.sleep()`. -/
def MOuterOut.sleptOf : MOuterOut → Bool
  | .ok _ _ _ slept => slept
  | _ => false

/-- One outer iteration of `MLFQSched::kernel_loop` (mlfq.rs lines 247-307):
service interrupts and deferred calls (environment effects), run the inner
scheduling loop, then take the sleep decision inside `chip.atomic`, whose
condition (mlfq.rs lines 298-305) is the same three-way conjunction as in
the round-robin and cooperative loops. -/
def mlfq_outer_iter (ready : Nat → Bool) (delta : Nat) (qs : MQueues) (nextReset : Nat)
    (inner : List MLoopObs) (a : SleepObs) : MOuterOut :=
  match mlfq_inner ready delta qs nextReset [] inner with
  | .brk runs qs2 nr2 => .ok runs qs2 nr2 (kernel_sleep_decision a)
  | .panicked runs => .panicked runs
  | .fuel runs => .fuel runs

/-! ## Theorems -/

/-- C1: the claim says that on `ContextSwitchReason::Interrupted` the
round-robin scheduler saves `remainder = programmed − time_used` and
reprograms exactly that remainder on the next selection.  The code
(round_robin.rs line 132) stores `timeslice - cur_time` where `cur_time` is
the systick's remaining value, i.e. it stores the time USED, and replays that
on the next selection.  At the failing input — quantum 10000 µs, interrupted
after 3000 µs used (7000 µs remaining) — the saved cell and the next
programmed timeslice are 3000, while the claim requires 7000 = 10000 − 3000. -/
theorem c1_rr_saves_time_used_not_remainder :
    rr_do_process false 0 [⟨false, .Running, some .Interrupted, 3000, false⟩]
        = .ret true 3000 0 1
      ∧ rr_programmed_timeslice true 3000 = 3000
      ∧ (3000 : Nat) ≠ DEFAULT_TIMESLICE_US - 3000 := by
  refine ⟨rfl, rfl, by decide⟩

/-- C2: the claim says `redeem_all_procs` moves every node of queues 1 and 2
into queue 0, leaving queues 1 and 2 empty.  In the code (mlfq.rs lines
89-101) the loop body runs `continue` while `first` is `true` and only clears
`first` after that test, so `first` is never cleared and the function changes
nothing: a node sitting in queue 2 is still there afterwards. -/
theorem c2_redeem_all_procs_is_noop :
    (∀ qs : MQueues, redeem_all_procs qs = qs)
      ∧ redeem_all_procs ⟨[], [], [⟨1, 700⟩]⟩ = ⟨[], [], [⟨1, 700⟩]⟩
      ∧ (redeem_all_procs ⟨[], [], [⟨1, 700⟩]⟩).q2 ≠ [] := by
  refine ⟨fun qs => rfl, rfl, by decide⟩

/-- C3: the claim says `PrioritySched::next` returns the first process in
table order that is runnable.  The code (priority.rs line 82) returns the
process in table slot 0 unconditionally: with a non-runnable process in slot
0 and a runnable one in slot 1, `next` returns the slot-0 process (which is
not runnable) while the claim requires the slot-1 process. -/
theorem c3_priority_next_ignores_runnability :
    priority_next [some ⟨0, false⟩, some ⟨1, true⟩] = (some ⟨0, false⟩, 10000)
      ∧ priority_next_spec [some ⟨0, false⟩, some ⟨1, true⟩] = some ⟨1, true⟩
      ∧ (priority_next [some ⟨0, false⟩, some ⟨1, true⟩]).1
          ≠ priority_next_spec [some ⟨0, false⟩, some ⟨1, true⟩]
      ∧ (⟨0, false⟩ : PProc).ready = false := by
  refine ⟨rfl, rfl, by decide, rfl⟩

/-- C4, counterexample: the claim says a node is demoted only when its
accumulated `us_used_this_queue` meets or exceeds the queue's full quantum
AND the stop reason was `TimesliceExpired`.  Here a queue-0 node is
interrupted after 9600 µs (the systick then sits at 400 µs < the 500 µs
threshold, so the guard reports `TimesliceExpired`), `us_used_this_queue` is
9600 < 10000 — yet the code demotes it to queue 1, because the demotion test
(mlfq.rs line 280) looks only at the stop reason. -/
theorem c4_demoted_below_full_quantum :
    mlfq_inner_iter (fun _ => true) ⟨[⟨1, 0⟩], [], []⟩
        [⟨false, .Running, some .Interrupted, 9600, false⟩]
      = .ok ⟨[], [⟨1, 0⟩], []⟩ (some .TimesliceExpired) 9600 1 1
      ∧ 9600 < get_timeslice_us .q0 := by
  refine ⟨rfl, by decide⟩

/-- C5: the claim says `us_used_this_queue` equals the sum of the elapsed
execution times since the last reset.  The code (mlfq.rs line 146) adds
`timeslice - systick.get_value()` after every context switch, but the systick
is programmed once per `do_process` call and keeps counting down across
switches, so `timeslice - get_value()` is the CUMULATIVE time of the call and
earlier switches are counted again.  Failing input: one `do_process` call
with two switches of 1000 µs and 2000 µs (a yield and a callback in
between); the cell ends at 1000 + (1000 + 2000) = 4000, while the elapsed
execution time accumulated is 1000 + 2000 = 3000. -/
theorem c5_us_used_overcounts_across_switches :
    mlfq_do_process 10000 0
        [⟨false, .Running, some (.SyscallFired .YIELD), 1000, false⟩,
         ⟨false, .Yielded, none, 0, true⟩,
         ⟨false, .Running, some (.SyscallFired .YIELD), 2000, false⟩,
         ⟨false, .Yielded, none, 0, false⟩]
      = .ret (some (.SyscallFired .YIELD)) 4000 0 2
      ∧ (1000 + 2000 : Nat) ≠ 4000 := by
  refine ⟨rfl, by decide⟩

/-- C8, counterexample: the claim says three ready processes P0, P1, P2
inserted at boot are scheduled in insertion order P0, P1, P2, P0, P1, P2.
`CooperativeComponent::finalize` pushes the nodes with `push_head` while
iterating the table in index order, so the ready list ends up in REVERSE
table order and the observed sequence for immediately-yielding processes is
P2, P1, P0, P2, P1, P0. -/
theorem c8_sequence_is_reverse_insertion_order :
    coop_component_finalize [0, 1, 2] = [2, 1, 0]
      ∧ (coop_inner (coop_component_finalize [0, 1, 2]) []
            (List.replicate 6 ⟨false, false, false, true,
              [⟨false, .Running, some (.SyscallFired .YIELD), 0, false⟩,
               ⟨false, .Yielded, none, 0, false⟩]⟩)).runsOf
          = [2, 1, 0, 2, 1, 0]
      ∧ [2, 1, 0, 2, 1, 0] ≠ [0, 1, 2, 0, 1, 2] := by
  refine ⟨rfl, by decide, by decide⟩

/-- C7: a process observed in state `Fault` makes every `do_process` panic
(mlfq.rs lines 182-185, cooperative.rs lines 107-110, round_robin.rs lines
148-151) instead of returning normally, provided the checks preceding the
state match do not break first (no pending interrupt or deferred call for
the cooperative and round-robin engines; systick above the minimum threshold
and queue-time cap not exceeded for the MLFQ engine).  The trailing zero
switch counters record that no context switch was performed: a faulted
process is never run. -/
theorem c7_fault_process_panics (e : Event) (rest : List Event)
    (resched : Bool) (timeRem : Nat) (ts usUsed : Nat)
    (hp : e.pending = false) (hs : e.state = .Fault)
    (hq : MIN_QUANTA_THRESHOLD_US < rr_programmed_timeslice resched timeRem)
    (hts : MIN_QUANTA_THRESHOLD_US < ts)
    (hu : usUsed ≤ PRIORITY_REFRESH_PERIOD_MS * 1000) :
    coop_do_process (e :: rest) = .panicked 0
      ∧ rr_do_process resched timeRem (e :: rest) = .panicked timeRem 0 0
      ∧ mlfq_do_process ts usUsed (e :: rest) = .panicked usUsed 0 0 := by
  refine ⟨?_, ?_, ?_⟩
  · simp [coop_do_process, coop_loop, hp, hs]
  · simp [rr_do_process, rr_loop, hp, hs, hq]
  · have h1 : ¬(PRIORITY_REFRESH_PERIOD_MS * 1000 < usUsed) := not_lt.mpr hu
    simp [mlfq_do_process, mlfq_loop, hs, hts, h1]

/-- Witness for C7 at a concrete input: a faulted process with no pending
interrupt, default round-robin quantum, MLFQ queue-0 quantum and a fresh
queue-time counter. -/
theorem c7_fault_process_panics_witness :
    coop_do_process [⟨false, .Fault, none, 0, false⟩] = .panicked 0
      ∧ rr_do_process false 0 [⟨false, .Fault, none, 0, false⟩] = .panicked 0 0 0
      ∧ mlfq_do_process 10000 0 [⟨false, .Fault, none, 0, false⟩] = .panicked 0 0 0 :=
  c7_fault_process_panics ⟨false, .Fault, none, 0, false⟩ [] false 0 10000 0
    rfl rfl (by decide) (by decide) (by decide)

/-- C9: when the programmed quantum is at or below the 500 µs minimum
threshold, or when the systick has overflowed, the round-robin and MLFQ
`do_process` call `debug_timeslice_expired` once and return without any
context switch (round_robin.rs lines 97-100, mlfq.rs lines 121-129).  The
MLFQ engine returns `Some(TimesliceExpired)`; the round-robin engine returns
`false` (not-interrupted), which its kernel loop treats like an expiry by
rotating the ring.  The third and fourth conjuncts cover the
overflow disjunct, which the loops test at every iteration. -/
theorem c9_min_quantum_guard (e : Event) (rest events2 events3 events4 : List Event)
    (resched : Bool) (timeRem timeRem2 : Nat) (ts ts2 usUsed sysval sysval2 dbg sw : Nat)
    (r : Option ContextSwitchReason)
    (hp : e.pending = false)
    (hq : rr_programmed_timeslice resched timeRem ≤ MIN_QUANTA_THRESHOLD_US)
    (hts : ts ≤ MIN_QUANTA_THRESHOLD_US) :
    rr_do_process resched timeRem (e :: rest) = .ret false timeRem 1 0
      ∧ mlfq_do_process ts usUsed events2 = .ret (some .TimesliceExpired) usUsed 1 0
      ∧ rr_loop ts2 sysval true timeRem2 dbg sw (e :: events3) = .ret false timeRem2 (dbg + 1) sw
      ∧ mlfq_loop ts2 sysval2 true usUsed r dbg sw events4
          = .ret (some .TimesliceExpired) usUsed (dbg + 1) sw := by
  refine ⟨?_, ?_, ?_, ?_⟩
  · have h1 : ¬(MIN_QUANTA_THRESHOLD_US < rr_programmed_timeslice resched timeRem) :=
      not_lt.mpr hq
    simp [rr_do_process, rr_loop, hp, h1]
  · have h1 : ¬(MIN_QUANTA_THRESHOLD_US < ts) := not_lt.mpr hts
    cases events2 <;> simp [mlfq_do_process, mlfq_loop, h1]
  · simp [rr_loop, hp]
  · cases events4 <;> simp [mlfq_loop]

/-- Witness for C9 at a concrete input: a 400 µs carried remainder for
round-robin, a 400 µs quantum for MLFQ. -/
theorem c9_min_quantum_guard_witness :
    rr_do_process true 400 [⟨false, .Running, none, 0, false⟩] = .ret false 400 1 0
      ∧ mlfq_do_process 400 0 [] = .ret (some .TimesliceExpired) 0 1 0 := by
  have H := c9_min_quantum_guard ⟨false, .Running, none, 0, false⟩ [] [] [] []
    true 400 0 400 1000 0 1000 1000 0 0 none rfl (by decide) (by decide)
  exact ⟨H.1, H.2.1⟩

/-- C10: whenever the selected node's `us_used_this_queue` exceeds
`PRIORITY_REFRESH_PERIOD_MS * 1000 = 5000000` µs, the MLFQ `do_process`
guard (mlfq.rs lines 122-128) reports `TimesliceExpired`, calls
`debug_timeslice_expired` and breaks before any context switch, whatever the
programmed timeslice and the observation script; such a stop reason makes
the kernel loop demote the node (appended with a zeroed counter to the tail
of the next lower queue, or of queue 2 itself) even though the node never
consumed its programmed quantum in one stretch. -/
theorem c10_queue_time_cap (ts usUsed : Nat) (events : List Event)
    (qs : MQueues) (idx : QIdx) (n : MNode) (rest : List MNode) (u : Nat)
    (hu : PRIORITY_REFRESH_PERIOD_MS * 1000 < usUsed)
    (hhead : qs.get idx = n :: rest) :
    mlfq_do_process ts usUsed events = .ret (some .TimesliceExpired) usUsed 1 0
      ∧ (mlfq_result_step qs idx (some .TimesliceExpired) u).get (nextQueue idx)
          = (qs.set idx rest).get (nextQueue idx) ++ [⟨n.appid, 0⟩] := by
  constructor
  · cases events <;> simp [mlfq_do_process, mlfq_loop, hu]
  · cases idx <;>
      simp [mlfq_result_step, MQueues.get, MQueues.set, nextQueue, hhead] <;>
      simp [MQueues.get] at hhead <;> simp [hhead]

/-- Witness for C10 at a concrete input: counter at 5000001 µs, node alone in
queue 0. -/
theorem c10_queue_time_cap_witness :
    mlfq_do_process 10000 5000001 [] = .ret (some .TimesliceExpired) 5000001 1 0
      ∧ (mlfq_result_step ⟨[⟨1, 5000001⟩], [], []⟩ .q0 (some .TimesliceExpired) 0).get (nextQueue .q0)
          = ((⟨[⟨1, 5000001⟩], [], []⟩ : MQueues).set .q0 []).get (nextQueue .q0) ++ [⟨1, 0⟩] :=
  c10_queue_time_cap 10000 5000001 [] ⟨[⟨1, 5000001⟩], [], []⟩ .q0 ⟨1, 5000001⟩ [] 0
    (by decide) rfl

/-- C4, amended: after every return from `do_process` for the selected node
(which `get_next_ready_process_node` left at the head of queue `idx`), the
node is demoted — appended with a zeroed `us_used_this_queue` to the tail of
the next lower queue, or of queue 2 itself when already there — if and only
if the stop reason was `TimesliceExpired`, REGARDLESS of the accumulated
`us_used_this_queue`; in every other case it is rotated to the tail of its
own queue with the counter keeping the value accumulated by `do_process`. -/
theorem c4_demotion_iff_timeslice_expired
    (ready : Nat → Bool) (qs qs1 : MQueues) (idx : QIdx) (events : List Event)
    (n : MNode) (rest : List MNode)
    (reason : Option ContextSwitchReason) (u dbg sw : Nat)
    (hsel : get_next_ready ready qs = some (qs1, idx))
    (hhead : qs1.get idx = n :: rest)
    (hrun : mlfq_do_process (get_timeslice_us idx) n.usUsed events = .ret reason u dbg sw) :
    mlfq_inner_iter ready qs events = .ok (mlfq_result_step qs1 idx reason u) reason u dbg sw
      ∧ (reason = some .TimesliceExpired →
          (mlfq_result_step qs1 idx reason u).get (nextQueue idx)
            = (qs1.set idx rest).get (nextQueue idx) ++ [⟨n.appid, 0⟩])
      ∧ (reason ≠ some .TimesliceExpired →
          mlfq_result_step qs1 idx reason u = qs1.set idx (rest ++ [⟨n.appid, u⟩])) := by
  refine ⟨?_, ?_, ?_⟩
  · simp [mlfq_inner_iter, hsel, hhead, hrun]
  · intro hTE
    subst hTE
    cases idx <;>
      simp [mlfq_result_step, MQueues.get, MQueues.set, nextQueue, hhead] <;>
      simp [MQueues.get] at hhead <;> simp [hhead]
  · intro hNE
    simp [mlfq_result_step, hhead, hNE]

/-- Witness for the amended C4 at a concrete input: a lone queue-0 node whose
process yields with no pending task, so the stop reason is not
`TimesliceExpired` and the node is rotated in place with its counter kept. -/
theorem c4_demotion_iff_timeslice_expired_witness :
    mlfq_inner_iter (fun _ => true) ⟨[⟨5, 100⟩], [], []⟩ [⟨false, .Yielded, none, 0, false⟩]
        = .ok (mlfq_result_step ⟨[⟨5, 100⟩], [], []⟩ .q0 none 100) none 100 0 0
      ∧ mlfq_result_step ⟨[⟨5, 100⟩], [], []⟩ .q0 none 100
          = (⟨[⟨5, 100⟩], [], []⟩ : MQueues).set .q0 ([] ++ [⟨5, 100⟩]) := by
  have H := c4_demotion_iff_timeslice_expired (fun _ => true)
    ⟨[⟨5, 100⟩], [], []⟩ ⟨[⟨5, 100⟩], [], []⟩ .q0 [⟨false, .Yielded, none, 0, false⟩]
    ⟨5, 100⟩ [] none 100 0 0 rfl rfl rfl
  exact ⟨H.1, H.2.2 (by decide)⟩

/-- C8, amended: after each execution the cooperative kernel loop leaves the
head node in place exactly when `do_process` reported an interruption
(returned `true`), and otherwise rotates it to the tail; since
`CooperativeComponent::finalize` builds the ready list with `push_head` over
the table in index order, three immediately-yielding processes P0, P1, P2
are scheduled in REVERSE insertion order: P2, P1, P0, P2, P1, P0, … -/
theorem c8_head_kept_iff_interrupted
    (h : Nat) (t : List Nat) (o : LoopObs) (intr : Bool) (sw : Nat)
    (hp : o.pending = false) (hd : o.deferred = false) (hb : o.blocked = false)
    (hl : o.lookupOk = true)
    (hrun : coop_do_process o.events = .ret intr sw) :
    coop_inner (h :: t) [] [o, ⟨true, false, false, true, []⟩]
        = .brk [h] (if intr then h :: t else t ++ [h]) false 0
      ∧ (coop_inner (coop_component_finalize [0, 1, 2]) []
            (List.replicate 6 ⟨false, false, false, true,
              [⟨false, .Running, some (.SyscallFired .YIELD), 0, false⟩,
               ⟨false, .Yielded, none, 0, false⟩]⟩)).runsOf
          = [2, 1, 0, 2, 1, 0] := by
  constructor
  · cases intr <;> simp [coop_inner, hp, hd, hb, hl, hrun]
  · decide

/-- Witness for the amended C8 at a concrete input: head process 7 with tail
process 8; the head yields without a task, `do_process` returns
not-interrupted, and the head is rotated to the tail. -/
theorem c8_head_kept_iff_interrupted_witness :
    coop_inner [7, 8] []
        [⟨false, false, false, true, [⟨false, .Yielded, none, 0, false⟩]⟩,
         ⟨true, false, false, true, []⟩]
      = .brk [7] [8, 7] false 0 := by
  have H := c8_head_kept_iff_interrupted 7 [8]
    ⟨false, false, false, true, [⟨false, .Yielded, none, 0, false⟩]⟩ false 0
    rfl rfl rfl rfl rfl
  exact H.1

/-- Helper: the executed-appid accumulator of the round-robin inner loop only
grows — the loop's result extends the accumulator it started from. -/
theorem rr_inner_runs_extend (obs : List LoopObs) :
    ∀ (queue : List Nat) (resched : Bool) (timeRem : Nat) (runs : List Nat),
      ∃ s, (rr_inner queue resched timeRem runs obs).runsOf = runs ++ s := by
  induction obs with
  | nil =>
    intro queue resched timeRem runs
    exact ⟨[], by simp [rr_inner, InnerOut.runsOf]⟩
  | cons o rest ih =>
    intro queue resched timeRem runs
    by_cases hc : (o.pending || o.deferred || o.blocked) = true
    · exact ⟨[], by simp [rr_inner, hc, InnerOut.runsOf]⟩
    · cases queue with
      | nil => exact ⟨[], by simp [rr_inner, hc, InnerOut.runsOf]⟩
      | cons h t =>
        by_cases hl : o.lookupOk = true
        · cases hdp : rr_do_process resched timeRem o.events with
          | ret intr timeRem2 d s =>
            cases intr with
            | false =>
              obtain ⟨s2, hs2⟩ := ih (t ++ [h]) false timeRem2 (runs ++ [h])
              exact ⟨[h] ++ s2, by simp [rr_inner, hc, hl, hdp, hs2]⟩
            | true =>
              obtain ⟨s2, hs2⟩ := ih (h :: t) true timeRem2 (runs ++ [h])
              exact ⟨[h] ++ s2, by simp [rr_inner, hc, hl, hdp, hs2]⟩
          | panicked timeRem2 d s =>
            exact ⟨[h], by simp [rr_inner, hc, hl, hdp, InnerOut.runsOf]⟩
          | fuel timeRem2 d s =>
            exact ⟨[h], by simp [rr_inner, hc, hl, hdp, InnerOut.runsOf]⟩
        · obtain ⟨s2, hs2⟩ := ih (t ++ [h]) false timeRem runs
          exact ⟨s2, by simp [rr_inner, hc, hl, hs2]⟩

/-- Helper: the executed-appid accumulator of the cooperative inner loop only
grows. -/
theorem coop_inner_runs_extend (obs : List LoopObs) :
    ∀ (queue : List Nat) (runs : List Nat),
      ∃ s, (coop_inner queue runs obs).runsOf = runs ++ s := by
  induction obs with
  | nil =>
    intro queue runs
    exact ⟨[], by simp [coop_inner, InnerOut.runsOf]⟩
  | cons o rest ih =>
    intro queue runs
    by_cases hc : (o.pending || o.deferred || o.blocked) = true
    · exact ⟨[], by simp [coop_inner, hc, InnerOut.runsOf]⟩
    · cases queue with
      | nil => exact ⟨[], by simp [coop_inner, hc, InnerOut.runsOf]⟩
      | cons h t =>
        by_cases hl : o.lookupOk = true
        · cases hdp : coop_do_process o.events with
          | ret intr s =>
            cases intr with
            | false =>
              obtain ⟨s2, hs2⟩ := ih (t ++ [h]) (runs ++ [h])
              exact ⟨[h] ++ s2, by simp [coop_inner, hc, hl, hdp, hs2]⟩
            | true =>
              obtain ⟨s2, hs2⟩ := ih (h :: t) (runs ++ [h])
              exact ⟨[h] ++ s2, by simp [coop_inner, hc, hl, hdp, hs2]⟩
          | panicked s =>
            exact ⟨[h], by simp [coop_inner, hc, hl, hdp, InnerOut.runsOf]⟩
          | fuel s =>
            exact ⟨[h], by simp [coop_inner, hc, hl, hdp, InnerOut.runsOf]⟩
        · obtain ⟨s2, hs2⟩ := ih (t ++ [h]) runs
          exact ⟨s2, by simp [coop_inner, hc, hl, hs2]⟩

/-- Helper: the outer iteration reports exactly the appids the inner loop
executed (round-robin). -/
theorem rr_outer_runsOf (queue : List Nat) (resched : Bool) (timeRem : Nat)
    (inner : List LoopObs) (a : SleepObs) :
    (rr_outer_iter queue resched timeRem inner a).runsOf
      = (rr_inner queue resched timeRem [] inner).runsOf := by
  cases hx : rr_inner queue resched timeRem [] inner <;>
    simp [rr_outer_iter, hx, RRIterOut.runsOf, InnerOut.runsOf]

/-- Helper: the outer iteration reports exactly the appids the inner loop
executed (cooperative). -/
theorem coop_outer_runsOf (queue : List Nat) (inner : List LoopObs) (a : SleepObs) :
    (coop_outer_iter queue inner a).runsOf = (coop_inner queue [] inner).runsOf := by
  cases hx : coop_inner queue [] inner <;>
    simp [coop_outer_iter, hx, RRIterOut.runsOf, InnerOut.runsOf]

/-- Helper: the executed-appid accumulator of the MLFQ inner loop only
grows. -/
theorem mlfq_inner_runs_extend (ready : Nat → Bool) (delta : Nat) (obs : List MLoopObs) :
    ∀ (qs : MQueues) (nextReset : Nat) (runs : List Nat),
      ∃ s, (mlfq_inner ready delta qs nextReset runs obs).runsOf = runs ++ s := by
  induction obs with
  | nil =>
    intro qs nextReset runs
    exact ⟨[], by simp [mlfq_inner, MInnerOut.runsOf]⟩
  | cons o rest ih =>
    intro qs nextReset runs
    by_cases hc : (o.pending || o.deferred || o.blocked) = true
    · exact ⟨[], by simp [mlfq_inner, hc, MInnerOut.runsOf]⟩
    · cases hsel : get_next_ready ready
          (if nextReset ≤ o.now then redeem_all_procs qs else qs) with
      | none => exact ⟨[], by simp [mlfq_inner, hc, hsel, MInnerOut.runsOf]⟩
      | some p =>
        obtain ⟨qs2, idx⟩ := p
        cases hhead : qs2.get idx with
        | nil => exact ⟨[], by simp [mlfq_inner, hc, hsel, hhead, MInnerOut.runsOf]⟩
        | cons n rest2 =>
          cases hdp : mlfq_do_process (get_timeslice_us idx) n.usUsed o.events with
          | ret reason u d s =>
            obtain ⟨s2, hs2⟩ := ih (mlfq_result_step qs2 idx reason u)
              (if nextReset ≤ o.now then o.now + delta else nextReset) (runs ++ [n.appid])
            exact ⟨[n.appid] ++ s2, by simp [mlfq_inner, hc, hsel, hhead, hdp, hs2]⟩
          | panicked u d s =>
            exact ⟨[n.appid], by simp [mlfq_inner, hc, hsel, hhead, hdp, MInnerOut.runsOf]⟩
          | fuel u d s =>
            exact ⟨[n.appid], by simp [mlfq_inner, hc, hsel, hhead, hdp, MInnerOut.runsOf]⟩

/-- Helper: the outer iteration reports exactly the appids the inner loop
executed (MLFQ). -/
theorem mlfq_outer_runsOf (ready : Nat → Bool) (delta : Nat) (qs : MQueues)
    (nextReset : Nat) (inner : List MLoopObs) (a : SleepObs) :
    (mlfq_outer_iter ready delta qs nextReset inner a).runsOf
      = (mlfq_inner ready delta qs nextReset [] inner).runsOf := by
  cases hx : mlfq_inner ready delta qs nextReset [] inner <;>
    simp [mlfq_outer_iter, hx, MOuterOut.runsOf, MInnerOut.runsOf]

/-- C6: in all three kernel loops (round-robin, cooperative and MLFQ),
`chip.sleep()` is reached only through the decision taken inside the
`chip.atomic` bracket, and only when that bracket observes no pending
interrupt, no pending deferred call and all processes blocked; conversely,
when the inner loop's first observation finds no pending interrupt, no
deferred call and a runnable process (with the ring's head resolvable in the
process table for round-robin and cooperative; with a ready node selectable
after the promotion check for MLFQ), the iteration executes that process. -/
theorem c6_sleep_gating (queue : List Nat) (resched : Bool) (timeRem : Nat)
    (inner : List LoopObs) (a : SleepObs) (o : LoopObs) (rest : List LoopObs)
    (h : Nat) (t : List Nat)
    (ready : Nat → Bool) (delta : Nat) (mqs qs2 : MQueues) (nextReset : Nat)
    (minner : List MLoopObs) (mo : MLoopObs) (mrest : List MLoopObs)
    (midx : QIdx) (mn : MNode) (mrest2 : List MNode) :
    ((rr_outer_iter queue resched timeRem inner a).sleptOf = true →
        a.pending = false ∧ a.deferred = false ∧ a.blocked = true)
      ∧ (o.pending = false → o.deferred = false → o.blocked = false → o.lookupOk = true →
          (rr_outer_iter (h :: t) resched timeRem (o :: rest) a).runsOf.head? = some h)
      ∧ ((coop_outer_iter queue inner a).sleptOf = true →
          a.pending = false ∧ a.deferred = false ∧ a.blocked = true)
      ∧ (o.pending = false → o.deferred = false → o.blocked = false → o.lookupOk = true →
          (coop_outer_iter (h :: t) (o :: rest) a).runsOf.head? = some h)
      ∧ ((mlfq_outer_iter ready delta mqs nextReset minner a).sleptOf = true →
          a.pending = false ∧ a.deferred = false ∧ a.blocked = true)
      ∧ (mo.pending = false → mo.deferred = false → mo.blocked = false →
          get_next_ready ready (if nextReset ≤ mo.now then redeem_all_procs mqs else mqs)
            = some (qs2, midx) →
          qs2.get midx = mn :: mrest2 →
          (mlfq_outer_iter ready delta mqs nextReset (mo :: mrest) a).runsOf.head?
            = some mn.appid) := by
  refine ⟨?_, ?_, ?_, ?_, ?_, ?_⟩
  · intro hs
    cases hx : rr_inner queue resched timeRem [] inner <;>
      simp [rr_outer_iter, hx, RRIterOut.sleptOf] at hs
    simp [kernel_sleep_decision, Bool.and_eq_true, Bool.not_eq_true'] at hs
    exact ⟨hs.1.1, hs.1.2, hs.2⟩
  · intro hp hd hb hl
    rw [rr_outer_runsOf]
    have hc : ¬((o.pending || o.deferred || o.blocked) = true) := by simp [hp, hd, hb]
    cases hdp : rr_do_process resched timeRem o.events with
    | ret intr timeRem2 d s =>
      cases intr with
      | false =>
        obtain ⟨s2, hs2⟩ := rr_inner_runs_extend rest (t ++ [h]) false timeRem2 [h]
        simp [rr_inner, hc, hl, hdp, hs2]
      | true =>
        obtain ⟨s2, hs2⟩ := rr_inner_runs_extend rest (h :: t) true timeRem2 [h]
        simp [rr_inner, hc, hl, hdp, hs2]
    | panicked timeRem2 d s => simp [rr_inner, hc, hl, hdp, InnerOut.runsOf]
    | fuel timeRem2 d s => simp [rr_inner, hc, hl, hdp, InnerOut.runsOf]
  · intro hs
    cases hx : coop_inner queue [] inner <;>
      simp [coop_outer_iter, hx, RRIterOut.sleptOf] at hs
    simp [kernel_sleep_decision, Bool.and_eq_true, Bool.not_eq_true'] at hs
    exact ⟨hs.1.1, hs.1.2, hs.2⟩
  · intro hp hd hb hl
    rw [coop_outer_runsOf]
    have hc : ¬((o.pending || o.deferred || o.blocked) = true) := by simp [hp, hd, hb]
    cases hdp : coop_do_process o.events with
    | ret intr s =>
      cases intr with
      | false =>
        obtain ⟨s2, hs2⟩ := coop_inner_runs_extend rest (t ++ [h]) [h]
        simp [coop_inner, hc, hl, hdp, hs2]
      | true =>
        obtain ⟨s2, hs2⟩ := coop_inner_runs_extend rest (h :: t) [h]
        simp [coop_inner, hc, hl, hdp, hs2]
    | panicked s => simp [coop_inner, hc, hl, hdp, InnerOut.runsOf]
    | fuel s => simp [coop_inner, hc, hl, hdp, InnerOut.runsOf]
  · intro hs
    cases hx : mlfq_inner ready delta mqs nextReset [] minner <;>
      simp [mlfq_outer_iter, hx, MOuterOut.sleptOf] at hs
    simp [kernel_sleep_decision, Bool.and_eq_true, Bool.not_eq_true'] at hs
    exact ⟨hs.1.1, hs.1.2, hs.2⟩
  · intro hp hd hb hsel hhead
    rw [mlfq_outer_runsOf]
    have hc : ¬((mo.pending || mo.deferred || mo.blocked) = true) := by simp [hp, hd, hb]
    cases hdp : mlfq_do_process (get_timeslice_us midx) mn.usUsed mo.events with
    | ret reason u d s =>
      obtain ⟨s2, hs2⟩ := mlfq_inner_runs_extend ready delta mrest
        (mlfq_result_step qs2 midx reason u)
        (if nextReset ≤ mo.now then mo.now + delta else nextReset) [mn.appid]
      simp [mlfq_inner, hc, hsel, hhead, hdp, hs2]
    | panicked u d s => simp [mlfq_inner, hc, hsel, hhead, hdp, MInnerOut.runsOf]
    | fuel u d s => simp [mlfq_inner, hc, hsel, hhead, hdp, MInnerOut.runsOf]

/-- Witness for C6 at concrete inputs: an iteration that breaks immediately
(pending interrupt) and then observes quiescence in the atomic bracket
sleeps with exactly those observations; an iteration whose first observation
is fully runnable executes the head process (0 for round-robin and
cooperative, the queue-0 node 4 for MLFQ). -/
theorem c6_sleep_gating_witness :
    ((⟨false, false, true⟩ : SleepObs).pending = false
        ∧ (⟨false, false, true⟩ : SleepObs).deferred = false
        ∧ (⟨false, false, true⟩ : SleepObs).blocked = true)
      ∧ (rr_outer_iter [0] false 0
            [⟨false, false, false, true, [⟨false, .Yielded, none, 0, false⟩]⟩]
            ⟨false, false, true⟩).runsOf.head? = some 0
      ∧ (coop_outer_iter [0]
            [⟨false, false, false, true, [⟨false, .Yielded, none, 0, false⟩]⟩]
            ⟨false, false, true⟩).runsOf.head? = some 0
      ∧ (mlfq_outer_iter (fun _ => true) 7 ⟨[⟨4, 0⟩], [], []⟩ 1000
            [⟨false, false, false, 0, [⟨false, .Yielded, none, 0, false⟩]⟩]
            ⟨false, false, true⟩).runsOf.head? = some 4 := by
  have H := c6_sleep_gating [5] false 0 [⟨true, false, false, true, []⟩]
    ⟨false, false, true⟩ ⟨false, false, false, true, [⟨false, .Yielded, none, 0, false⟩]⟩
    [] 0 []
    (fun _ => true) 7 ⟨[⟨4, 0⟩], [], []⟩ ⟨[⟨4, 0⟩], [], []⟩ 1000
    [⟨true, false, false, 0, []⟩] ⟨false, false, false, 0, [⟨false, .Yielded, none, 0, false⟩]⟩
    [] .q0 ⟨4, 0⟩ []
  exact ⟨H.1 (by decide), H.2.1 rfl rfl rfl rfl, H.2.2.2.1 rfl rfl rfl rfl,
    H.2.2.2.2.2 rfl rfl rfl (by decide) rfl⟩

end Tock
